import Mathlib

/-!
Shallow embedding of the resource-resolution and header-negotiation engine of
the `servefiles` repository (package `servefiles`, v3): the outcome codes and
their rendering (`util.go`), the filesystem probe `checkResource`, the expiry
cache `expires`, the resolver `chooseResource` and the dispatcher `ServeHTTP`
(`assets.go`), together with the configuration mutator `WithMaxAge`.

Go's `http.Header` (a map from canonical key to list of values) is modelled as
an association list with `Set` / `Add` / `Get` / `delete` operations mirroring
the `net/http` ones.  Machine integers (`int64` unix seconds, `time.Duration`
nanosecond counts) are modelled as `Int` / `Nat`; durations are non-negative
by the package's documented contract, hence `Nat`.
-/

namespace Servefiles

/-- Response-header collection: association list from key to value list,
modelling Go's `http.Header` map. -/
abbrev Header := List (String × List String)

/-- Go `delete(h, k)`: remove the key entirely. -/
def hdrDel (h : Header) (k : String) : Header :=
  h.filter (fun p => !(p.1 == k))

/-- Retrieve the full value list for a key (empty when absent), as indexing a
Go map does. -/
def hdrValues (h : Header) (k : String) : List String :=
  match h.find? (fun p => p.1 == k) with
  | some p => p.2
  | none => []

/-- Go `Header.Set`: replace the key's values by the single given value. -/
def hdrSet (h : Header) (k v : String) : Header :=
  (k, [v]) :: hdrDel h k

/-- Go `Header.Add`: append the value to the key's value list. -/
def hdrAdd (h : Header) (k v : String) : Header :=
  (k, hdrValues h k ++ [v]) :: hdrDel h k

/-- Go `Header.Get`: first value for the key, or the empty string. -/
def hdrGet (h : Header) (k : String) : String :=
  (hdrValues h k).headD ""

theorem hdrValues_cons (p : String × List String) (t : Header) (k : String) :
    hdrValues (p :: t) k = if p.1 == k then p.2 else hdrValues t k := by
  unfold hdrValues
  rw [List.find?]
  cases hpk : (p.1 == k) <;> simp [hpk]

theorem hdrDel_cons (p : String × List String) (t : Header) (k : String) :
    hdrDel (p :: t) k = if p.1 == k then hdrDel t k else p :: hdrDel t k := by
  unfold hdrDel
  rw [List.filter]
  cases hpk : (p.1 == k) <;> simp [hpk]

theorem hdrValues_del_self (h : Header) (k : String) :
    hdrValues (hdrDel h k) k = [] := by
  induction h with
  | nil => rfl
  | cons p t ih =>
    rw [hdrDel_cons]
    by_cases hpk : p.1 = k
    · simpa [hpk] using ih
    · rw [if_neg (by simpa using hpk), hdrValues_cons,
        if_neg (by simpa using hpk)]
      exact ih

theorem hdrValues_del_ne (h : Header) {k k' : String} (hne : k' ≠ k) :
    hdrValues (hdrDel h k) k' = hdrValues h k' := by
  induction h with
  | nil => rfl
  | cons p t ih =>
    rw [hdrDel_cons, hdrValues_cons]
    by_cases hpk : p.1 = k
    · have hp' : (p.1 == k') = false := by
        simp [hpk]
        exact fun hc => hne hc.symm
      rw [if_pos (by simpa using hpk), if_neg (by simp [hp'])]
      exact ih
    · rw [if_neg (by simpa using hpk), hdrValues_cons]
      by_cases hpk' : p.1 = k'
      · simp [hpk']
      · rw [if_neg (by simpa using hpk'), if_neg (by simpa using hpk')]
        exact ih

theorem hdrValues_set_self (h : Header) (k v : String) :
    hdrValues (hdrSet h k v) k = [v] := by
  rw [hdrSet, hdrValues_cons]
  simp

theorem hdrValues_set_ne (h : Header) {k k' : String} (v : String) (hne : k' ≠ k) :
    hdrValues (hdrSet h k v) k' = hdrValues h k' := by
  rw [hdrSet, hdrValues_cons, if_neg (by simpa using fun hc => hne hc.symm)]
  exact hdrValues_del_ne h hne

theorem hdrValues_add_self (h : Header) (k v : String) :
    hdrValues (hdrAdd h k v) k = hdrValues h k ++ [v] := by
  rw [hdrAdd, hdrValues_cons]
  simp

theorem hdrValues_add_ne (h : Header) {k k' : String} (v : String) (hne : k' ≠ k) :
    hdrValues (hdrAdd h k v) k' = hdrValues h k' := by
  rw [hdrAdd, hdrValues_cons, if_neg (by simpa using fun hc => hne hc.symm)]
  exact hdrValues_del_ne h hne

/-! ## Outcome codes (`util.go`) -/

/-- Outcome codes (`type code int` in `util.go`); the numeric values are the
HTTP status numbers, with `Directory` an internal sentinel. -/
abbrev Code := Nat

def Directory : Code := 0
def OK : Code := 200
def Forbidden : Code := 403
def NotFound : Code := 404
def MethodNotAllowed : Code := 405
def ServiceUnavailable : Code := 503

/-- Rendering method `code.String` from `util.go`.  The Go method panics on a
value without a listed rendering; the panic is modelled as `none`. -/
def codeString (c : Code) : Option String :=
  if c = OK then some "200 OK"
  else if c = Forbidden then some "403 Forbidden"
  else if c = NotFound then some "404 Not found"
  else if c = MethodNotAllowed then some "405 Method Not Allowed"
  else if c = ServiceUnavailable then some "503 Service unavailable"
  else none

/-! ## Small utilities (`util.go`, `assets.go`) -/

/-- Go `strings.HasSuffix`, byte-level suffix test (here at the character
level; all the suffixes used by the code are ASCII). -/
def hasSuffix (s suffix : String) : Bool :=
  suffix.data.isSuffixOf s.data

/-- Function `removeLeadingSlash` from `assets.go`: drop the first character
when it is `/` (Go tests `name[0] == '/'` and slices; the slash is ASCII, so
the byte test is the character test). -/
def removeLeadingSlash (name : String) : String :=
  match name.data with
  | c :: rest => if c = '/' then String.mk rest else name
  | [] => name

/-- Function `removeTrailingSlash` from `assets.go`: drop the last character
when it is `/`. -/
def removeTrailingSlash (name : String) : String :=
  match name.data.reverse with
  | c :: rest => if c = '/' then String.mk rest.reverse else name
  | [] => name

/-- Go `strings.Split` on a single-character separator, over the character
list. -/
def splitOnChar (sep : Char) : List Char → List (List Char)
  | [] => [[]]
  | x :: xs =>
    if x = sep then [] :: splitOnChar sep xs
    else
      match splitOnChar sep xs with
      | [] => [[x]]
      | y :: ys => (x :: y) :: ys

/-- Go `unicode.IsSpace` restricted to ASCII (header values are ASCII): the
characters Go's `strings.TrimSpace` strips there. -/
def isGoSpace (c : Char) : Bool :=
  c = ' ' || c = '\t' || c = '\n' || c = (Char.ofNat 11) ||
    c = (Char.ofNat 12) || c = '\r'

/-- Go `strings.TrimSpace` over the character list. -/
def trimSpace (l : List Char) : List Char :=
  ((l.dropWhile isGoSpace).reverse.dropWhile isGoSpace).reverse

/-- Function `commaSeparatedList` from `util.go`: split on commas and trim
whitespace from each part. -/
def commaSeparatedList (s : String) : List String :=
  (splitOnChar ',' s.data).map (fun l => String.mk (trimSpace l))

/-- Go `filepath.Ext`, on the reversed character list: scan from the end of
the path, stop at a path separator, return the suffix from the last dot. -/
def extRevAux : List Char → Option (List Char)
  | [] => none
  | c :: rest =>
    if c = '/' then none
    else if c = '.' then some [c]
    else match extRevAux rest with
         | none => none
         | some l => some (c :: l)

/-- Go `filepath.Ext`: the suffix beginning at the final dot in the final
slash-separated element of the path; empty if there is no dot. -/
def filepathExt (p : String) : String :=
  match extRevAux p.data.reverse with
  | none => ""
  | some l => String.mk l.reverse

/-- Modelled from the spec: stands in for the Go standard-library function
`mime.TypeByExtension` (not part of this repository), a deterministic map
from a file extension to a MIME type; none of the claims depends on the
concrete table. -/
def mimeTypeByExtension (ext : String) : String :=
  if ext = ".css" then "text/css; charset=utf-8"
  else if ext = ".html" then "text/html; charset=utf-8"
  else if ext = ".js" then "text/javascript; charset=utf-8"
  else if ext = ".png" then "image/png"
  else ""

/-! ## File data and the filesystem probe (`assets.go`) -/

/-- The result of `os.FileInfo` fields used by the code: `ModTime().Unix()`
and `Size()`, both `int64` in Go. -/
structure FileInfo where
  modTime : Int
  size : Int
deriving DecidableEq

/-- Result of `fs.Stat` on the abstract filesystem: a regular file, a
directory, or one of the three error classes distinguished by the probe. -/
inductive StatResult where
  | file (fi : FileInfo)
  | dir (fi : FileInfo)
  | errNotExist
  | errPermission
  | errOther
deriving DecidableEq

/-- The abstract read-only filesystem: stat by path. -/
abbrev Fs := String → StatResult

/-- Lowercase hex rendering of a natural number, as Go `%x`. -/
def hexOfNat (n : Nat) : String :=
  String.mk (Nat.toDigits 16 n)

/-- Lowercase hex rendering of an `int64`, as Go `%x`. -/
def hexOfInt (i : Int) : String :=
  if i < 0 then "-" ++ hexOfNat i.natAbs else hexOfNat i.toNat

/-- Struct `fileData` from `assets.go`. -/
structure FileData where
  resource : String
  code : Code
  fi : Option FileInfo
deriving DecidableEq

/-- Function `calculateEtag` from `assets.go`: renders the modification time
and size as `"<hex>-<hex>"`, double quotes included (the Go code formats with
`%x-%x` inside literal quotes); empty string on a nil `FileInfo`. -/
def calculateEtag : Option FileInfo → String
  | none => ""
  | some fi => "\"" ++ hexOfInt fi.modTime ++ "-" ++ hexOfInt fi.size ++ "\""

/-- Function `handleSaturatedServer` from `assets.go`.  The draw
`rand.IntN(4)` is modelled by `rnd % 4` for an arbitrary `rnd`, so the
backoff is `2 + rand.IntN(4)`, i.e. a value in `[2,6)`. -/
def handleSaturatedServer (wHeader : Header) (resource : String) (rnd : Nat) :
    Header × FileData :=
  let backoff := 2 + rnd % 4
  (hdrSet wHeader "Retry-After" (toString backoff),
   ⟨resource, ServiceUnavailable, none⟩)

/-- Method `checkResource` from `assets.go`: stat the resource (with its
leading slash removed) and classify the result. -/
def checkResource (fs : Fs) (rnd : Nat) (resource : String) (wHeader : Header) :
    Header × FileData :=
  match fs (removeLeadingSlash resource) with
  | .errNotExist => (wHeader, ⟨"", NotFound, none⟩)
  | .errPermission => (wHeader, ⟨resource, Forbidden, none⟩)
  | .errOther => handleSaturatedServer wHeader resource rnd
  | .dir _ => (wHeader, ⟨resource, Directory, none⟩)
  | .file fi => (wHeader, ⟨resource, OK, some fi⟩)

/-! ## The expiry cache (`assets.go`, method `expires`) -/

/-- Nanoseconds per second; Go `time.Duration` counts nanoseconds and
`time.Second = 1e9`. -/
def nsPerSecond : Nat := 1000000000

/-- Modelled from the spec: stands in for the Go standard-library call
`t.Format(time.RFC1123)` (not part of this repository): a deterministic
rendering of the time at whole-second granularity.  The claims depend only on
determinism and on the second granularity, not on the concrete text. -/
def timeFormatRFC1123 (unixSec : Int) : String :=
  "RFC1123:" ++ toString unixSec

/-- The mutable fields of `Assets` guarded by the expiry-cache lock:
`expiryElasticity` (a `time.Duration`, nanoseconds), `timestamp` (an `int64`
watermark in unix seconds), `timestampExpiry` (the cached formatted string)
and `maxAgeS` (the max age in whole seconds, pre-calculated). -/
structure ExpiryState where
  expiryElasticity : Nat
  timestamp : Int
  timestampExpiry : String
  maxAgeS : Nat
deriving DecidableEq

/-- The zero value of the mutable fields, as created by the constructors
`NewAssetHandler*`. -/
def ExpiryState.initial : ExpiryState := ⟨0, 0, "", 0⟩

/-- Method `expires` from `assets.go`, as a state transformer over the cache
fields, with the current wall-clock time `now` (nanoseconds since the unix
epoch) passed explicitly.  Mirrors the source line by line: lazy elasticity
initialisation `1 + MaxAge/100`; `unix := now.Unix()`; on `unix > timestamp`
recompute `timestampExpiry = (now + MaxAge + elasticity).Format(RFC1123)`,
set `timestamp = unix + int64(expiryElasticity)` (note: the nanosecond count
itself, added to a seconds value) and ensure `maxAgeS` is set. -/
def expires (maxAge : Nat) (now : Nat) (st : ExpiryState) :
    ExpiryState × String :=
  let elast := if st.expiryElasticity = 0 then 1 + maxAge / 100
               else st.expiryElasticity
  let st0 := { st with expiryElasticity := elast }
  let unix : Int := (now / nsPerSecond : Nat)
  if st0.timestamp < unix then
    let later := now + maxAge + elast
    let st1 : ExpiryState :=
      { st0 with
        timestampExpiry := timeFormatRFC1123 ((later / nsPerSecond : Nat) : Int)
        timestamp := unix + (elast : Int)
        maxAgeS := if st0.maxAgeS = 0 then maxAge / nsPerSecond else st0.maxAgeS }
    (st1, st1.timestampExpiry)
  else
    (st0, st0.timestampExpiry)

/-! ## Configuration (`assets.go`, struct `Assets`) -/

/-- Constant `IndexPage` from `assets.go`. -/
def IndexPage : String := "index.html"

/-- The immutable configuration fields of struct `Assets`.  The two optional
delegate handlers are modelled by their presence (`nil` test is all the
dispatcher does with them); the mutable expiry-cache fields live in
`ExpiryState` and are threaded separately. -/
structure Assets where
  UnwantedPrefixSegments : Nat
  MaxAge : Nat
  NotFoundHandler : Bool
  MethodNotAllowedHandler : Bool
  DisableDirListing : Bool
  fs : Fs

/-- Method `WithMaxAge` from `assets.go`: panics on negative max age
(modelled as `none`), otherwise returns a copy with `MaxAge` and the
pre-calculated `maxAgeS = int(maxAge / time.Second)` set. -/
def WithMaxAge (a : Assets) (st : ExpiryState) (maxAge : Int) :
    Option (Assets × ExpiryState) :=
  if maxAge < 0 then none
  else some ({ a with MaxAge := maxAge.toNat },
             { st with maxAgeS := maxAge.toNat / nsPerSecond })

/-! ## The resolver (`assets.go`, method `chooseResource`) -/

/-- The request fields read by the resolver and dispatcher: the method, the
URL path, and the `Accept-Encoding` request-header value. -/
structure Request where
  method : String
  urlPath : String
  acceptEncoding : String
deriving DecidableEq

/-- Result of one resolver run: the expiry-cache state, the response headers,
and the resource/code pair returned by `chooseResource`. -/
structure ResolveOut where
  st : ExpiryState
  hdr : Header
  resource : String
  code : Code

/-- The header writes of the two compressed-variant blocks of
`chooseResource` (`assets.go` lines with `Content-Type` … `ETag`): content
type from the original resource's extension, `nosniff`, the content
encoding, `Vary: Accept-Encoding` (added), and a weak ETag from the
variant's file info. -/
def serveCompressed (h : Header) (resource encoding : String)
    (fi : Option FileInfo) : Header :=
  let h1 := hdrSet h "Content-Type" (mimeTypeByExtension (filepathExt resource))
  let h2 := hdrSet h1 "X-Content-Type-Options" "nosniff"
  let h3 := hdrSet h2 "Content-Encoding" encoding
  let h4 := hdrAdd h3 "Vary" "Accept-Encoding"
  hdrSet h4 "ETag" ("W/" ++ calculateEtag fi)

/-- The final stage of `chooseResource`: probe the plain resource; on
`Directory` re-append the trailing slash; on a success code (`< 300`, not
`Directory`) set a strong ETag; return the file data's resource and code. -/
def choosePlain (a : Assets) (rnd : Nat) (st : ExpiryState) (h : Header)
    (resource : String) : ResolveOut :=
  let c := checkResource a.fs rnd resource h
  let fd := c.2
  if fd.code = Directory then ⟨st, c.1, fd.resource ++ "/", fd.code⟩
  else if fd.code < 300 then
    ⟨st, hdrSet c.1 "ETag" (calculateEtag fd.fi), fd.resource, fd.code⟩
  else ⟨st, c.1, fd.resource, fd.code⟩

/-- The gzip stage of `chooseResource`: when `"gzip"` is in the
accept-encoding list, probe `resource + ".gz"`; serve it on success,
otherwise fall through to the plain stage. -/
def chooseGzip (a : Assets) (rnd : Nat) (st : ExpiryState) (h : Header)
    (acceptEncoding : List String) (resource : String) : ResolveOut :=
  if acceptEncoding.contains "gzip" then
    let c := checkResource a.fs rnd (resource ++ ".gz") h
    if c.2.code = OK then
      ⟨st, serveCompressed c.1 resource "gzip" c.2.fi, resource ++ ".gz", OK⟩
    else choosePlain a rnd st c.1 resource
  else choosePlain a rnd st h resource

/-- The brotli stage of `chooseResource`: when `"br"` is in the
accept-encoding list, probe `resource + ".br"`; serve it on success,
otherwise fall through to the gzip stage. -/
def chooseBr (a : Assets) (rnd : Nat) (st : ExpiryState) (h : Header)
    (acceptEncoding : List String) (resource : String) : ResolveOut :=
  if acceptEncoding.contains "br" then
    let c := checkResource a.fs rnd (resource ++ ".br") h
    if c.2.code = OK then
      ⟨st, serveCompressed c.1 resource "br" c.2.fi, resource ++ ".br", OK⟩
    else chooseGzip a rnd st c.1 acceptEncoding resource
  else chooseGzip a rnd st h acceptEncoding resource

/-- The non-directory part of `chooseResource` (everything after the
trailing-slash block): set the cache headers when `MaxAge > 0` (`Expires`
from `expires()` and `Cache-Control: public, max-age=<maxAgeS>`), then try
brotli, gzip, and the plain resource in order. -/
def chooseResourceSub (a : Assets) (now rnd : Nat) (st : ExpiryState)
    (hdr : Header) (req : Request) (resource : String) : ResolveOut :=
  let pe : ExpiryState × Header :=
    if 0 < a.MaxAge then
      let e := expires a.MaxAge now st
      (e.1, hdrSet (hdrSet hdr "Expires" e.2) "Cache-Control"
              ("public, max-age=" ++ toString e.1.maxAgeS))
    else (st, hdr)
  let acceptEncoding := commaSeparatedList req.acceptEncoding
  chooseBr a rnd pe.1 pe.2 acceptEncoding resource

/-- Method `chooseResource` from `assets.go`.  When the resource ends in
`/`, resolve `resource + IndexPage` first (the recursive call in the source;
the argument never ends in `/`, so it equals `chooseResourceSub`, see
`chooseResource_noSlash`): on success return the original directory path if
the resolved path ends in `/index.html` (to avoid the `http.FileServer`
redirect), else the resolved path; on failure with directory listings
disabled, delete `Expires`/`Cache-Control` and return the failure; otherwise
trim the trailing slash and fall through. -/
def chooseResource (a : Assets) (now rnd : Nat) (st : ExpiryState)
    (hdr : Header) (req : Request) (resource : String) : ResolveOut :=
  if hasSuffix resource "/" then
    let ir := chooseResourceSub a now rnd st hdr req (resource ++ IndexPage)
    if ir.code = OK then
      if hasSuffix ir.resource ("/" ++ IndexPage) then
        { ir with resource := resource }
      else ir
    else if a.DisableDirListing then
      { ir with hdr := hdrDel (hdrDel ir.hdr "Expires") "Cache-Control" }
    else
      chooseResourceSub a now rnd ir.st ir.hdr req (removeTrailingSlash resource)
  else chooseResourceSub a now rnd st hdr req resource

/-! ## The dispatcher (`assets.go`, method `ServeHTTP`) -/

/-- Modelled from the spec: `path.Drop` from the external
`github.com/rickb777/path` package (not part of this repository): discard
exactly `n` leading slash-delimited segments from the path, collapsing to
the root path when fewer segments exist.  None of the claims depends on its
concrete behaviour. -/
def pathDrop (p : String) (n : Nat) : String :=
  if n = 0 then p
  else
    let segs := ((splitOnChar '/' p.data).filter (fun s => !(s.isEmpty))).drop n
    if segs.isEmpty then "/"
    else String.mk (segs.foldl (fun acc s => acc ++ '/' :: s) [])

/-- What `httpError` from `assets.go` writes: for HEAD only the status; for
other methods `http.Error` with body `code.String() + "\n"`; `panicked`
models the `panic` inside `code.String` for an unlisted code. -/
inductive ErrReply where
  | headerOnly (status : Code)
  | body (status : Code) (text : String)
  | panicked
deriving DecidableEq

/-- Function `httpError` from `assets.go`. -/
def httpError (c : Code) (method : String) : ErrReply :=
  if method = "HEAD" then .headerOnly c
  else
    match codeString c with
    | some s => .body c (s ++ "\n")
    | none => .panicked

/-- Which collaborator `ServeHTTP` hands the request to: a configured
delegate handler, the built-in `httpError` responder (carrying the code it
is invoked with), or the external byte-serving collaborator
(`a.server.ServeHTTP`, carrying the request it sees). -/
inductive Dispatch where
  | delegatedMethodNotAllowed
  | delegatedNotFound
  | httpErrorWith (c : Code)
  | served (collab : Request)
deriving DecidableEq

/-- Result of one dispatcher run: cache state, response headers, the branch
taken, and the request value after `ServeHTTP` returns. -/
structure ServeResult where
  st : ExpiryState
  hdr : Header
  dispatch : Dispatch
  req : Request

/-- Method `ServeHTTP` from `assets.go`: method check, resolution of the
prefix-stripped path, branching on the outcome code, and — in the serving
branch — overwriting `req.URL.Path` with the resolved resource for the
collaborator call and restoring the original afterwards. -/
def ServeHTTP (a : Assets) (now rnd : Nat) (st : ExpiryState) (w : Header)
    (req : Request) : ServeResult :=
  if req.method ≠ "HEAD" ∧ req.method ≠ "GET" then
    if a.MethodNotAllowedHandler then ⟨st, w, .delegatedMethodNotAllowed, req⟩
    else ⟨st, w, .httpErrorWith MethodNotAllowed, req⟩
  else
    let r := chooseResource a now rnd st w req
               (pathDrop req.urlPath a.UnwantedPrefixSegments)
    if r.code = NotFound ∧ a.NotFoundHandler then
      ⟨r.st, r.hdr, .delegatedNotFound, req⟩
    else if 400 ≤ r.code then
      ⟨r.st, r.hdr, .httpErrorWith r.code, req⟩
    else
      let original := req.urlPath
      let collab : Request := { req with urlPath := r.resource }
      let restored : Request := { collab with urlPath := original }
      ⟨r.st, r.hdr, .served collab, restored⟩

/-! ## Helper lemmas about the embedded operations -/

theorem hasSuffix_append_right (s t u : String) (h : hasSuffix s t = true) :
    hasSuffix (s ++ u) (t ++ u) = true := by
  unfold hasSuffix at *
  rw [List.isSuffixOf_iff_suffix] at h ⊢
  rw [String.data_append, String.data_append]
  obtain ⟨w, hw⟩ := h
  exact ⟨w, by rw [← List.append_assoc, hw]⟩

/-- The `FileData` produced by the probe depends only on the filesystem and
the resource, not on the header collection or the random draw. -/
theorem checkResource_snd_pair (fs : Fs) (r : String) (rnd₁ rnd₂ : Nat)
    (h₁ h₂ : Header) :
    (checkResource fs rnd₁ r h₁).2 = (checkResource fs rnd₂ r h₂).2 := by
  unfold checkResource handleSaturatedServer
  cases fs (removeLeadingSlash r) <;> rfl

/-- The probe touches only the `Retry-After` response header. -/
theorem checkResource_hdr (fs : Fs) (rnd : Nat) (r : String) (h : Header)
    {k : String} (hk : k ≠ "Retry-After") :
    hdrValues (checkResource fs rnd r h).1 k = hdrValues h k := by
  unfold checkResource handleSaturatedServer
  cases fs (removeLeadingSlash r) <;>
    simp [hdrValues_set_ne _ _ hk]

theorem serveCompressed_etag (h : Header) (r e : String) (fi : Option FileInfo) :
    hdrValues (serveCompressed h r e fi) "ETag" = ["W/" ++ calculateEtag fi] := by
  unfold serveCompressed
  rw [hdrValues_set_self]

theorem serveCompressed_contentEncoding (h : Header) (r e : String)
    (fi : Option FileInfo) :
    hdrValues (serveCompressed h r e fi) "Content-Encoding" = [e] := by
  unfold serveCompressed
  rw [hdrValues_set_ne _ _ (by decide), hdrValues_add_ne _ _ (by decide),
    hdrValues_set_self]

/-- The compressed-variant header writes touch none of the other keys. -/
theorem serveCompressed_hdr (h : Header) (r e : String) (fi : Option FileInfo)
    {k : String} (h1 : k ≠ "Content-Type") (h2 : k ≠ "X-Content-Type-Options")
    (h3 : k ≠ "Content-Encoding") (h4 : k ≠ "Vary") (h5 : k ≠ "ETag") :
    hdrValues (serveCompressed h r e fi) k = hdrValues h k := by
  unfold serveCompressed
  rw [hdrValues_set_ne _ _ h5, hdrValues_add_ne _ _ h4, hdrValues_set_ne _ _ h3,
    hdrValues_set_ne _ _ h2, hdrValues_set_ne _ _ h1]

/-- Two plain-stage runs over the same filesystem and resource, with possibly
different random draws, cache states and headers agreeing on `ETag`, agree on
the resource, the code and the `ETag` values. -/
theorem choosePlain_pair (a : Assets) (r : String) (rnd₁ rnd₂ : Nat)
    (st₁ st₂ : ExpiryState) (h₁ h₂ : Header)
    (he : hdrValues h₁ "ETag" = hdrValues h₂ "ETag") :
    (choosePlain a rnd₁ st₁ h₁ r).resource = (choosePlain a rnd₂ st₂ h₂ r).resource ∧
    (choosePlain a rnd₁ st₁ h₁ r).code = (choosePlain a rnd₂ st₂ h₂ r).code ∧
    hdrValues (choosePlain a rnd₁ st₁ h₁ r).hdr "ETag" =
      hdrValues (choosePlain a rnd₂ st₂ h₂ r).hdr "ETag" := by
  unfold choosePlain checkResource handleSaturatedServer
  cases hfs : a.fs (removeLeadingSlash r) <;>
    simp_all [hdrValues_set_self, hdrValues_set_ne, Directory, OK, NotFound,
      Forbidden, ServiceUnavailable]

/-- The plain stage writes only `ETag` (and, through the probe,
`Retry-After`). -/
theorem choosePlain_hdr (a : Assets) (rnd : Nat) (st : ExpiryState) (h : Header)
    (r : String) {k : String} (hk1 : k ≠ "ETag") (hk2 : k ≠ "Retry-After") :
    hdrValues (choosePlain a rnd st h r).hdr k = hdrValues h k := by
  unfold choosePlain checkResource handleSaturatedServer
  cases hfs : a.fs (removeLeadingSlash r) <;>
    simp_all [hdrValues_set_ne, OK, Directory, NotFound, Forbidden,
      ServiceUnavailable]

theorem chooseGzip_pair (a : Assets) (r : String) (ae : List String)
    (rnd₁ rnd₂ : Nat) (st₁ st₂ : ExpiryState) (h₁ h₂ : Header)
    (he : hdrValues h₁ "ETag" = hdrValues h₂ "ETag") :
    (chooseGzip a rnd₁ st₁ h₁ ae r).resource = (chooseGzip a rnd₂ st₂ h₂ ae r).resource ∧
    (chooseGzip a rnd₁ st₁ h₁ ae r).code = (chooseGzip a rnd₂ st₂ h₂ ae r).code ∧
    hdrValues (chooseGzip a rnd₁ st₁ h₁ ae r).hdr "ETag" =
      hdrValues (chooseGzip a rnd₂ st₂ h₂ ae r).hdr "ETag" := by
  simp only [chooseGzip]
  by_cases hg : ae.contains "gzip"
  · rw [if_pos hg, if_pos hg]
    have hsnd := checkResource_snd_pair a.fs (r ++ ".gz") rnd₁ rnd₂ h₁ h₂
    rw [hsnd]
    by_cases hok : (checkResource a.fs rnd₂ (r ++ ".gz") h₂).2.code = OK
    · rw [if_pos hok, if_pos hok]
      refine ⟨rfl, rfl, ?_⟩
      rw [serveCompressed_etag, serveCompressed_etag]
    · rw [if_neg hok, if_neg hok]
      exact choosePlain_pair a r rnd₁ rnd₂ st₁ st₂ _ _
        (by rw [checkResource_hdr _ _ _ _ (by decide),
                checkResource_hdr _ _ _ _ (by decide)]; exact he)
  · rw [if_neg hg, if_neg hg]
    exact choosePlain_pair a r rnd₁ rnd₂ st₁ st₂ h₁ h₂ he

theorem chooseBr_pair (a : Assets) (r : String) (ae : List String)
    (rnd₁ rnd₂ : Nat) (st₁ st₂ : ExpiryState) (h₁ h₂ : Header)
    (he : hdrValues h₁ "ETag" = hdrValues h₂ "ETag") :
    (chooseBr a rnd₁ st₁ h₁ ae r).resource = (chooseBr a rnd₂ st₂ h₂ ae r).resource ∧
    (chooseBr a rnd₁ st₁ h₁ ae r).code = (chooseBr a rnd₂ st₂ h₂ ae r).code ∧
    hdrValues (chooseBr a rnd₁ st₁ h₁ ae r).hdr "ETag" =
      hdrValues (chooseBr a rnd₂ st₂ h₂ ae r).hdr "ETag" := by
  simp only [chooseBr]
  by_cases hb : ae.contains "br"
  · rw [if_pos hb, if_pos hb]
    have hsnd := checkResource_snd_pair a.fs (r ++ ".br") rnd₁ rnd₂ h₁ h₂
    rw [hsnd]
    by_cases hok : (checkResource a.fs rnd₂ (r ++ ".br") h₂).2.code = OK
    · rw [if_pos hok, if_pos hok]
      refine ⟨rfl, rfl, ?_⟩
      rw [serveCompressed_etag, serveCompressed_etag]
    · rw [if_neg hok, if_neg hok]
      exact chooseGzip_pair a r ae rnd₁ rnd₂ st₁ st₂ _ _
        (by rw [checkResource_hdr _ _ _ _ (by decide),
                checkResource_hdr _ _ _ _ (by decide)]; exact he)
  · rw [if_neg hb, if_neg hb]
    exact chooseGzip_pair a r ae rnd₁ rnd₂ st₁ st₂ h₁ h₂ he

theorem chooseResourceSub_pair (a : Assets) (req : Request) (r : String)
    (now₁ now₂ rnd₁ rnd₂ : Nat) (st₁ st₂ : ExpiryState) (h₁ h₂ : Header)
    (he : hdrValues h₁ "ETag" = hdrValues h₂ "ETag") :
    (chooseResourceSub a now₁ rnd₁ st₁ h₁ req r).resource =
      (chooseResourceSub a now₂ rnd₂ st₂ h₂ req r).resource ∧
    (chooseResourceSub a now₁ rnd₁ st₁ h₁ req r).code =
      (chooseResourceSub a now₂ rnd₂ st₂ h₂ req r).code ∧
    hdrValues (chooseResourceSub a now₁ rnd₁ st₁ h₁ req r).hdr "ETag" =
      hdrValues (chooseResourceSub a now₂ rnd₂ st₂ h₂ req r).hdr "ETag" := by
  simp only [chooseResourceSub]
  by_cases hma : 0 < a.MaxAge
  · simp only [if_pos hma]
    exact chooseBr_pair a r _ rnd₁ rnd₂ _ _ _ _
      (by rw [hdrValues_set_ne _ _ (by decide), hdrValues_set_ne _ _ (by decide),
              hdrValues_set_ne _ _ (by decide), hdrValues_set_ne _ _ (by decide)]
          exact he)
  · simp only [if_neg hma]
    exact chooseBr_pair a r _ rnd₁ rnd₂ _ _ _ _ he

/-- Two full resolver runs over the same configuration, header and request,
with possibly different clocks, random draws and cache states, agree on the
resource, the code and the `ETag` values. -/
theorem chooseResource_pair (a : Assets) (req : Request) (r : String)
    (now₁ now₂ rnd₁ rnd₂ : Nat) (st₁ st₂ : ExpiryState) (hdr : Header) :
    (chooseResource a now₁ rnd₁ st₁ hdr req r).resource =
      (chooseResource a now₂ rnd₂ st₂ hdr req r).resource ∧
    (chooseResource a now₁ rnd₁ st₁ hdr req r).code =
      (chooseResource a now₂ rnd₂ st₂ hdr req r).code ∧
    hdrValues (chooseResource a now₁ rnd₁ st₁ hdr req r).hdr "ETag" =
      hdrValues (chooseResource a now₂ rnd₂ st₂ hdr req r).hdr "ETag" := by
  simp only [chooseResource]
  by_cases hsuf : hasSuffix r "/"
  · simp only [if_pos hsuf]
    obtain ⟨hr, hc, het⟩ := chooseResourceSub_pair a req (r ++ IndexPage)
      now₁ now₂ rnd₁ rnd₂ st₁ st₂ hdr hdr rfl
    by_cases hok : (chooseResourceSub a now₂ rnd₂ st₂ hdr req (r ++ IndexPage)).code = OK
    · have hok₁ : (chooseResourceSub a now₁ rnd₁ st₁ hdr req (r ++ IndexPage)).code = OK :=
        hc.trans hok
      rw [if_pos hok, if_pos hok₁, hr]
      by_cases hsx : hasSuffix
          (chooseResourceSub a now₂ rnd₂ st₂ hdr req (r ++ IndexPage)).resource
          ("/" ++ IndexPage)
      · rw [if_pos hsx, if_pos hsx]
        exact ⟨rfl, by simpa using hc, by simpa using het⟩
      · rw [if_neg hsx, if_neg hsx]
        exact ⟨hr, hc, het⟩
    · have hok₁ : ¬ (chooseResourceSub a now₁ rnd₁ st₁ hdr req (r ++ IndexPage)).code = OK :=
        fun hcon => hok (hc.symm.trans hcon)
      rw [if_neg hok, if_neg hok₁]
      by_cases hdl : a.DisableDirListing
      · rw [if_pos hdl, if_pos hdl]
        refine ⟨hr, hc, ?_⟩
        show hdrValues (hdrDel (hdrDel _ "Expires") "Cache-Control") "ETag" =
          hdrValues (hdrDel (hdrDel _ "Expires") "Cache-Control") "ETag"
        rw [hdrValues_del_ne _ (by decide), hdrValues_del_ne _ (by decide),
          hdrValues_del_ne _ (by decide), hdrValues_del_ne _ (by decide)]
        exact het
      · rw [if_neg hdl, if_neg hdl]
        exact chooseResourceSub_pair a req (removeTrailingSlash r)
          now₁ now₂ rnd₁ rnd₂ _ _ _ _ het
  · simp only [if_neg hsuf]
    exact chooseResourceSub_pair a req r now₁ now₂ rnd₁ rnd₂ st₁ st₂ hdr hdr rfl

/-! ## Selection and unfolding lemmas for the resolver stages -/

theorem chooseBr_selects (a : Assets) (rnd : Nat) (st : ExpiryState) (h : Header)
    (ae : List String) (r : String) (fi : FileInfo)
    (hb : ae.contains "br" = true)
    (hfs : a.fs (removeLeadingSlash (r ++ ".br")) = .file fi) :
    chooseBr a rnd st h ae r =
      ⟨st, serveCompressed h r "br" (some fi), r ++ ".br", OK⟩ := by
  simp only [chooseBr, checkResource, hfs, hb, if_true]

theorem chooseGzip_selects (a : Assets) (rnd : Nat) (st : ExpiryState) (h : Header)
    (ae : List String) (r : String) (fi : FileInfo)
    (hg : ae.contains "gzip" = true)
    (hfs : a.fs (removeLeadingSlash (r ++ ".gz")) = .file fi) :
    chooseGzip a rnd st h ae r =
      ⟨st, serveCompressed h r "gzip" (some fi), r ++ ".gz", OK⟩ := by
  simp only [chooseGzip, checkResource, hfs, hg, if_true]

theorem chooseBr_no (a : Assets) (rnd : Nat) (st : ExpiryState) (h : Header)
    (ae : List String) (r : String) (hb : ae.contains "br" = false) :
    chooseBr a rnd st h ae r = chooseGzip a rnd st h ae r := by
  simp only [chooseBr, hb, Bool.false_eq_true, if_false]

theorem chooseGzip_no (a : Assets) (rnd : Nat) (st : ExpiryState) (h : Header)
    (ae : List String) (r : String) (hg : ae.contains "gzip" = false) :
    chooseGzip a rnd st h ae r = choosePlain a rnd st h r := by
  simp only [chooseGzip, hg, Bool.false_eq_true, if_false]

theorem choosePlain_file (a : Assets) (rnd : Nat) (st : ExpiryState) (h : Header)
    (r : String) (fi : FileInfo)
    (hfs : a.fs (removeLeadingSlash r) = .file fi) :
    choosePlain a rnd st h r =
      ⟨st, hdrSet h "ETag" (calculateEtag (some fi)), r, OK⟩ := by
  simp [choosePlain, checkResource, hfs, OK, Directory]

theorem choosePlain_notExist (a : Assets) (rnd : Nat) (st : ExpiryState)
    (h : Header) (r : String)
    (hfs : a.fs (removeLeadingSlash r) = .errNotExist) :
    choosePlain a rnd st h r = ⟨st, h, "", NotFound⟩ := by
  simp [choosePlain, checkResource, hfs, NotFound, Directory]

theorem chooseResourceSub_pos (a : Assets) (now rnd : Nat) (st : ExpiryState)
    (hdr : Header) (req : Request) (r : String) (hma : 0 < a.MaxAge) :
    chooseResourceSub a now rnd st hdr req r =
      chooseBr a rnd (expires a.MaxAge now st).1
        (hdrSet (hdrSet hdr "Expires" (expires a.MaxAge now st).2) "Cache-Control"
          ("public, max-age=" ++ toString (expires a.MaxAge now st).1.maxAgeS))
        (commaSeparatedList req.acceptEncoding) r := by
  simp only [chooseResourceSub, if_pos hma]

theorem chooseResourceSub_zero (a : Assets) (now rnd : Nat) (st : ExpiryState)
    (hdr : Header) (req : Request) (r : String) (hma : ¬ 0 < a.MaxAge) :
    chooseResourceSub a now rnd st hdr req r =
      chooseBr a rnd st hdr (commaSeparatedList req.acceptEncoding) r := by
  simp only [chooseResourceSub, if_neg hma]

theorem chooseResource_noSlash (a : Assets) (now rnd : Nat) (st : ExpiryState)
    (hdr : Header) (req : Request) (r : String)
    (hs : hasSuffix r "/" = false) :
    chooseResource a now rnd st hdr req r =
      chooseResourceSub a now rnd st hdr req r := by
  simp only [chooseResource, hs, Bool.false_eq_true, if_false]

/-! ## Header preservation through the compression stages -/

theorem chooseGzip_hdr (a : Assets) (rnd : Nat) (st : ExpiryState) (h : Header)
    (ae : List String) (r : String) {k : String}
    (h1 : k ≠ "Content-Type") (h2 : k ≠ "X-Content-Type-Options")
    (h3 : k ≠ "Content-Encoding") (h4 : k ≠ "Vary") (h5 : k ≠ "ETag")
    (h6 : k ≠ "Retry-After") :
    hdrValues (chooseGzip a rnd st h ae r).hdr k = hdrValues h k := by
  simp only [chooseGzip]
  by_cases hg : ae.contains "gzip"
  · rw [if_pos hg]
    by_cases hok : (checkResource a.fs rnd (r ++ ".gz") h).2.code = OK
    · rw [if_pos hok]
      show hdrValues (serveCompressed _ _ _ _) k = _
      rw [serveCompressed_hdr _ _ _ _ h1 h2 h3 h4 h5]
      exact checkResource_hdr _ _ _ _ h6
    · rw [if_neg hok, choosePlain_hdr _ _ _ _ _ h5 h6]
      exact checkResource_hdr _ _ _ _ h6
  · rw [if_neg hg]
    exact choosePlain_hdr _ _ _ _ _ h5 h6

theorem chooseBr_hdr (a : Assets) (rnd : Nat) (st : ExpiryState) (h : Header)
    (ae : List String) (r : String) {k : String}
    (h1 : k ≠ "Content-Type") (h2 : k ≠ "X-Content-Type-Options")
    (h3 : k ≠ "Content-Encoding") (h4 : k ≠ "Vary") (h5 : k ≠ "ETag")
    (h6 : k ≠ "Retry-After") :
    hdrValues (chooseBr a rnd st h ae r).hdr k = hdrValues h k := by
  simp only [chooseBr]
  by_cases hb : ae.contains "br"
  · rw [if_pos hb]
    by_cases hok : (checkResource a.fs rnd (r ++ ".br") h).2.code = OK
    · rw [if_pos hok]
      show hdrValues (serveCompressed _ _ _ _) k = _
      rw [serveCompressed_hdr _ _ _ _ h1 h2 h3 h4 h5]
      exact checkResource_hdr _ _ _ _ h6
    · rw [if_neg hok, chooseGzip_hdr _ _ _ _ _ _ h1 h2 h3 h4 h5 h6]
      exact checkResource_hdr _ _ _ _ h6
  · rw [if_neg hb]
    exact chooseGzip_hdr _ _ _ _ _ _ h1 h2 h3 h4 h5 h6

/-! ## The codes the resolver can return -/

/-- The classified outcome codes: exactly the values the probe and the
resolver produce. -/
def isOutcome (c : Code) : Prop :=
  c = Directory ∨ c = OK ∨ c = Forbidden ∨ c = NotFound ∨ c = ServiceUnavailable

theorem checkResource_isOutcome (fs : Fs) (rnd : Nat) (r : String) (h : Header) :
    isOutcome (checkResource fs rnd r h).2.code := by
  unfold checkResource handleSaturatedServer isOutcome
  cases fs (removeLeadingSlash r) <;> simp

theorem choosePlain_code_eq (a : Assets) (rnd : Nat) (st : ExpiryState)
    (h : Header) (r : String) :
    (choosePlain a rnd st h r).code = (checkResource a.fs rnd r h).2.code := by
  unfold choosePlain
  by_cases h0 : (checkResource a.fs rnd r h).2.code = Directory
  · simp [h0]
  · by_cases h3 : (checkResource a.fs rnd r h).2.code < 300 <;> simp [h0, h3]

theorem choosePlain_isOutcome (a : Assets) (rnd : Nat) (st : ExpiryState)
    (h : Header) (r : String) : isOutcome (choosePlain a rnd st h r).code := by
  rw [choosePlain_code_eq]
  exact checkResource_isOutcome a.fs rnd r h

theorem chooseGzip_isOutcome (a : Assets) (rnd : Nat) (st : ExpiryState)
    (h : Header) (ae : List String) (r : String) :
    isOutcome (chooseGzip a rnd st h ae r).code := by
  simp only [chooseGzip]
  by_cases hg : ae.contains "gzip"
  · rw [if_pos hg]
    by_cases hok : (checkResource a.fs rnd (r ++ ".gz") h).2.code = OK
    · rw [if_pos hok]
      exact Or.inr (Or.inl rfl)
    · rw [if_neg hok]
      exact choosePlain_isOutcome _ _ _ _ _
  · rw [if_neg hg]
    exact choosePlain_isOutcome _ _ _ _ _

theorem chooseBr_isOutcome (a : Assets) (rnd : Nat) (st : ExpiryState)
    (h : Header) (ae : List String) (r : String) :
    isOutcome (chooseBr a rnd st h ae r).code := by
  simp only [chooseBr]
  by_cases hb : ae.contains "br"
  · rw [if_pos hb]
    by_cases hok : (checkResource a.fs rnd (r ++ ".br") h).2.code = OK
    · rw [if_pos hok]
      exact Or.inr (Or.inl rfl)
    · rw [if_neg hok]
      exact chooseGzip_isOutcome _ _ _ _ _ _
  · rw [if_neg hb]
    exact chooseGzip_isOutcome _ _ _ _ _ _

theorem chooseResourceSub_isOutcome (a : Assets) (now rnd : Nat)
    (st : ExpiryState) (hdr : Header) (req : Request) (r : String) :
    isOutcome (chooseResourceSub a now rnd st hdr req r).code := by
  simp only [chooseResourceSub]
  by_cases hma : 0 < a.MaxAge
  · simp only [if_pos hma]
    exact chooseBr_isOutcome _ _ _ _ _ _
  · simp only [if_neg hma]
    exact chooseBr_isOutcome _ _ _ _ _ _

theorem chooseResource_isOutcome (a : Assets) (now rnd : Nat)
    (st : ExpiryState) (hdr : Header) (req : Request) (r : String) :
    isOutcome (chooseResource a now rnd st hdr req r).code := by
  simp only [chooseResource]
  by_cases hsuf : hasSuffix r "/"
  · simp only [if_pos hsuf]
    by_cases hok : (chooseResourceSub a now rnd st hdr req (r ++ IndexPage)).code = OK
    · rw [if_pos hok]
      by_cases hsx : hasSuffix
          (chooseResourceSub a now rnd st hdr req (r ++ IndexPage)).resource
          ("/" ++ IndexPage)
      · rw [if_pos hsx]
        exact Or.inr (Or.inl hok)
      · rw [if_neg hsx]
        exact chooseResourceSub_isOutcome _ _ _ _ _ _ _
    · rw [if_neg hok]
      by_cases hdl : a.DisableDirListing
      · rw [if_pos hdl]
        exact chooseResourceSub_isOutcome _ _ _ _ _ _ _
      · rw [if_neg hdl]
        exact chooseResourceSub_isOutcome _ _ _ _ _ _ _
  · simp only [if_neg hsuf]
    exact chooseResourceSub_isOutcome _ _ _ _ _ _ _

/-! ## Lemmas about the expiry cache and the cache headers -/

/-- Once `maxAgeS` holds the whole-second value of the max age, `expires`
keeps it there. -/
theorem expires_maxAgeS (m now : Nat) (st : ExpiryState)
    (hm : st.maxAgeS = m / nsPerSecond) :
    ((expires m now st).1).maxAgeS = m / nsPerSecond := by
  unfold expires
  by_cases ht : (st.timestamp : Int) < ((now / nsPerSecond : Nat) : Int)
  · simp only [ht, if_pos, if_true]
    by_cases h0 : st.maxAgeS = 0 <;> simp [h0, hm]
  · simp only [ht, if_neg, if_false, hm]

/-- With a positive max age, the resolver's non-directory part leaves
`Cache-Control` at exactly the value the cache-header block wrote. -/
theorem chooseResourceSub_cacheControl (a : Assets) (now rnd : Nat)
    (st : ExpiryState) (hdr : Header) (req : Request) (r : String)
    (hma : 0 < a.MaxAge) :
    hdrValues (chooseResourceSub a now rnd st hdr req r).hdr "Cache-Control" =
      ["public, max-age=" ++ toString ((expires a.MaxAge now st).1.maxAgeS)] := by
  rw [chooseResourceSub_pos _ _ _ _ _ _ _ hma,
    chooseBr_hdr _ _ _ _ _ _ (by decide) (by decide) (by decide) (by decide)
      (by decide) (by decide), hdrValues_set_self]

/-- With a positive max age, the resolver's non-directory part leaves
`Expires` at exactly the `expires()` value. -/
theorem chooseResourceSub_expires (a : Assets) (now rnd : Nat)
    (st : ExpiryState) (hdr : Header) (req : Request) (r : String)
    (hma : 0 < a.MaxAge) :
    hdrValues (chooseResourceSub a now rnd st hdr req r).hdr "Expires" =
      [(expires a.MaxAge now st).2] := by
  rw [chooseResourceSub_pos _ _ _ _ _ _ _ hma,
    chooseBr_hdr _ _ _ _ _ _ (by decide) (by decide) (by decide) (by decide)
      (by decide) (by decide), hdrValues_set_ne _ _ (by decide),
    hdrValues_set_self]

/-- With max age zero, the resolver's non-directory part never touches
`Expires` or `Cache-Control`. -/
theorem chooseResourceSub_m0 (a : Assets) (now rnd : Nat) (st : ExpiryState)
    (hdr : Header) (req : Request) (r : String) (hma : ¬ 0 < a.MaxAge)
    {k : String} (h1 : k ≠ "Content-Type") (h2 : k ≠ "X-Content-Type-Options")
    (h3 : k ≠ "Content-Encoding") (h4 : k ≠ "Vary") (h5 : k ≠ "ETag")
    (h6 : k ≠ "Retry-After") :
    hdrValues (chooseResourceSub a now rnd st hdr req r).hdr k =
      hdrValues hdr k := by
  rw [chooseResourceSub_zero _ _ _ _ _ _ _ hma]
  exact chooseBr_hdr _ _ _ _ _ _ h1 h2 h3 h4 h5 h6

/-- When neither `br` nor `gzip` is acceptable and the plain resource stats
as a regular file, the non-directory part selects the plain resource with a
strong ETag. -/
theorem chooseResourceSub_plainSelected (a : Assets) (now rnd : Nat)
    (st : ExpiryState) (hdr : Header) (req : Request) (r : String) (fi : FileInfo)
    (hbr : (commaSeparatedList req.acceptEncoding).contains "br" = false)
    (hgz : (commaSeparatedList req.acceptEncoding).contains "gzip" = false)
    (hfs : a.fs (removeLeadingSlash r) = .file fi) :
    (chooseResourceSub a now rnd st hdr req r).resource = r ∧
    (chooseResourceSub a now rnd st hdr req r).code = OK ∧
    hdrValues (chooseResourceSub a now rnd st hdr req r).hdr "ETag" =
      [calculateEtag (some fi)] := by
  by_cases hma : 0 < a.MaxAge
  · rw [chooseResourceSub_pos _ _ _ _ _ _ _ hma, chooseBr_no _ _ _ _ _ _ hbr,
      chooseGzip_no _ _ _ _ _ _ hgz, choosePlain_file _ _ _ _ _ _ hfs]
    exact ⟨rfl, rfl, hdrValues_set_self _ _ _⟩
  · rw [chooseResourceSub_zero _ _ _ _ _ _ _ hma, chooseBr_no _ _ _ _ _ _ hbr,
      chooseGzip_no _ _ _ _ _ _ hgz, choosePlain_file _ _ _ _ _ _ hfs]
    exact ⟨rfl, rfl, hdrValues_set_self _ _ _⟩

/-- When `br` is acceptable and the brotli variant stats as a regular file,
the non-directory part selects it, with `Content-Encoding: br` and the weak
ETag of the variant's file info. -/
theorem chooseResourceSub_brSelected (a : Assets) (now rnd : Nat)
    (st : ExpiryState) (hdr : Header) (req : Request) (r : String) (fi : FileInfo)
    (hbr : (commaSeparatedList req.acceptEncoding).contains "br" = true)
    (hfs : a.fs (removeLeadingSlash (r ++ ".br")) = .file fi) :
    (chooseResourceSub a now rnd st hdr req r).resource = r ++ ".br" ∧
    (chooseResourceSub a now rnd st hdr req r).code = OK ∧
    hdrValues (chooseResourceSub a now rnd st hdr req r).hdr "Content-Encoding"
      = ["br"] ∧
    hdrValues (chooseResourceSub a now rnd st hdr req r).hdr "ETag"
      = ["W/" ++ calculateEtag (some fi)] := by
  by_cases hma : 0 < a.MaxAge
  · rw [chooseResourceSub_pos _ _ _ _ _ _ _ hma, chooseBr_selects _ _ _ _ _ _ fi hbr hfs]
    exact ⟨rfl, rfl, serveCompressed_contentEncoding _ _ _ _,
      serveCompressed_etag _ _ _ _⟩
  · rw [chooseResourceSub_zero _ _ _ _ _ _ _ hma, chooseBr_selects _ _ _ _ _ _ fi hbr hfs]
    exact ⟨rfl, rfl, serveCompressed_contentEncoding _ _ _ _,
      serveCompressed_etag _ _ _ _⟩

/-- When `br` is not acceptable, `gzip` is, and the gzip variant stats as a
regular file, the non-directory part selects it, with
`Content-Encoding: gzip` and the weak ETag of the variant's file info. -/
theorem chooseResourceSub_gzSelected (a : Assets) (now rnd : Nat)
    (st : ExpiryState) (hdr : Header) (req : Request) (r : String) (fi : FileInfo)
    (hbr : (commaSeparatedList req.acceptEncoding).contains "br" = false)
    (hgz : (commaSeparatedList req.acceptEncoding).contains "gzip" = true)
    (hfs : a.fs (removeLeadingSlash (r ++ ".gz")) = .file fi) :
    (chooseResourceSub a now rnd st hdr req r).resource = r ++ ".gz" ∧
    (chooseResourceSub a now rnd st hdr req r).code = OK ∧
    hdrValues (chooseResourceSub a now rnd st hdr req r).hdr "Content-Encoding"
      = ["gzip"] ∧
    hdrValues (chooseResourceSub a now rnd st hdr req r).hdr "ETag"
      = ["W/" ++ calculateEtag (some fi)] := by
  by_cases hma : 0 < a.MaxAge
  · rw [chooseResourceSub_pos _ _ _ _ _ _ _ hma, chooseBr_no _ _ _ _ _ _ hbr,
      chooseGzip_selects _ _ _ _ _ _ fi hgz hfs]
    exact ⟨rfl, rfl, serveCompressed_contentEncoding _ _ _ _,
      serveCompressed_etag _ _ _ _⟩
  · rw [chooseResourceSub_zero _ _ _ _ _ _ _ hma, chooseBr_no _ _ _ _ _ _ hbr,
      chooseGzip_selects _ _ _ _ _ _ fi hgz hfs]
    exact ⟨rfl, rfl, serveCompressed_contentEncoding _ _ _ _,
      serveCompressed_etag _ _ _ _⟩

/-- When neither encoding is acceptable and the plain resource does not
exist, the non-directory part reports `NotFound` with an empty resource. -/
theorem chooseResourceSub_notExist (a : Assets) (now rnd : Nat)
    (st : ExpiryState) (hdr : Header) (req : Request) (r : String)
    (hbr : (commaSeparatedList req.acceptEncoding).contains "br" = false)
    (hgz : (commaSeparatedList req.acceptEncoding).contains "gzip" = false)
    (hfs : a.fs (removeLeadingSlash r) = .errNotExist) :
    (chooseResourceSub a now rnd st hdr req r).resource = "" ∧
    (chooseResourceSub a now rnd st hdr req r).code = NotFound := by
  by_cases hma : 0 < a.MaxAge
  · rw [chooseResourceSub_pos _ _ _ _ _ _ _ hma, chooseBr_no _ _ _ _ _ _ hbr,
      chooseGzip_no _ _ _ _ _ _ hgz, choosePlain_notExist _ _ _ _ _ hfs]
    exact ⟨rfl, rfl⟩
  · rw [chooseResourceSub_zero _ _ _ _ _ _ _ hma, chooseBr_no _ _ _ _ _ _ hbr,
      chooseGzip_no _ _ _ _ _ _ hgz, choosePlain_notExist _ _ _ _ _ hfs]
    exact ⟨rfl, rfl⟩

/-- With max age zero and `Expires`/`Cache-Control` initially absent, the
full resolver leaves both absent on every path (including the
directory-listing-disabled path, which deletes them). -/
theorem chooseResource_m0_cache (a : Assets) (now rnd : Nat) (st : ExpiryState)
    (hdr : Header) (req : Request) (r : String) (hma : ¬ 0 < a.MaxAge)
    (hE : hdrValues hdr "Expires" = [])
    (hC : hdrValues hdr "Cache-Control" = []) :
    hdrValues (chooseResource a now rnd st hdr req r).hdr "Expires" = [] ∧
    hdrValues (chooseResource a now rnd st hdr req r).hdr "Cache-Control" = [] := by
  simp only [chooseResource]
  by_cases hsuf : hasSuffix r "/"
  · simp only [if_pos hsuf]
    have hIE : hdrValues
        (chooseResourceSub a now rnd st hdr req (r ++ IndexPage)).hdr "Expires" = [] := by
      rw [chooseResourceSub_m0 _ _ _ _ _ _ _ hma (by decide) (by decide)
        (by decide) (by decide) (by decide) (by decide)]
      exact hE
    have hIC : hdrValues
        (chooseResourceSub a now rnd st hdr req (r ++ IndexPage)).hdr "Cache-Control" = [] := by
      rw [chooseResourceSub_m0 _ _ _ _ _ _ _ hma (by decide) (by decide)
        (by decide) (by decide) (by decide) (by decide)]
      exact hC
    by_cases hok : (chooseResourceSub a now rnd st hdr req (r ++ IndexPage)).code = OK
    · rw [if_pos hok]
      by_cases hsx : hasSuffix
          (chooseResourceSub a now rnd st hdr req (r ++ IndexPage)).resource
          ("/" ++ IndexPage)
      · rw [if_pos hsx]
        exact ⟨hIE, hIC⟩
      · rw [if_neg hsx]
        exact ⟨hIE, hIC⟩
    · rw [if_neg hok]
      by_cases hdl : a.DisableDirListing
      · rw [if_pos hdl]
        constructor
        · show hdrValues (hdrDel (hdrDel _ "Expires") "Cache-Control") "Expires" = []
          rw [hdrValues_del_ne _ (by decide)]
          exact hdrValues_del_self _ _
        · exact hdrValues_del_self _ _
      · rw [if_neg hdl]
        constructor
        · rw [chooseResourceSub_m0 _ _ _ _ _ _ _ hma (by decide) (by decide)
            (by decide) (by decide) (by decide) (by decide)]
          exact hIE
        · rw [chooseResourceSub_m0 _ _ _ _ _ _ _ hma (by decide) (by decide)
            (by decide) (by decide) (by decide) (by decide)]
          exact hIC
  · simp only [if_neg hsuf]
    constructor
    · rw [chooseResourceSub_m0 _ _ _ _ _ _ _ hma (by decide) (by decide)
        (by decide) (by decide) (by decide) (by decide)]
      exact hE
    · rw [chooseResourceSub_m0 _ _ _ _ _ _ _ hma (by decide) (by decide)
        (by decide) (by decide) (by decide) (by decide)]
      exact hC

/-- The probe reports `OK` exactly when the stat finds a regular file. -/
theorem checkResource_code_eq_OK (fs : Fs) (rnd : Nat) (r : String) (h : Header) :
    (checkResource fs rnd r h).2.code = OK ↔
      ∃ fi : FileInfo, fs (removeLeadingSlash r) = .file fi := by
  unfold checkResource handleSaturatedServer
  cases hfs : fs (removeLeadingSlash r) <;>
    simp [OK, Directory, NotFound, Forbidden, ServiceUnavailable]

/-- When `br` is acceptable but the brotli variant does not stat as a
regular file, the brotli block falls through to the gzip stage, threading
the probe's header side effect. -/
theorem chooseBr_fallthrough (a : Assets) (rnd : Nat) (st : ExpiryState)
    (h : Header) (ae : List String) (r : String)
    (hb : ae.contains "br" = true)
    (hnf : ∀ fj : FileInfo, a.fs (removeLeadingSlash (r ++ ".br")) ≠ .file fj) :
    chooseBr a rnd st h ae r =
      chooseGzip a rnd st (checkResource a.fs rnd (r ++ ".br") h).1 ae r := by
  simp only [chooseBr, hb, if_true]
  have hnok : ¬ (checkResource a.fs rnd (r ++ ".br") h).2.code = OK := by
    rw [checkResource_code_eq_OK]
    rintro ⟨fj, hc⟩
    exact hnf fj hc
  rw [if_neg hnok]

/-- When `gzip` is acceptable but the gzip variant does not stat as a
regular file, the gzip block falls through to the plain stage, threading
the probe's header side effect. -/
theorem chooseGzip_fallthrough (a : Assets) (rnd : Nat) (st : ExpiryState)
    (h : Header) (ae : List String) (r : String)
    (hg : ae.contains "gzip" = true)
    (hnf : ∀ fj : FileInfo, a.fs (removeLeadingSlash (r ++ ".gz")) ≠ .file fj) :
    chooseGzip a rnd st h ae r =
      choosePlain a rnd st (checkResource a.fs rnd (r ++ ".gz") h).1 r := by
  simp only [chooseGzip, hg, if_true]
  have hnok : ¬ (checkResource a.fs rnd (r ++ ".gz") h).2.code = OK := by
    rw [checkResource_code_eq_OK]
    rintro ⟨fj, hc⟩
    exact hnf fj hc
  rw [if_neg hnok]

/-- Whenever the brotli variant is not selected — whether because `br` is
not acceptable or because the variant is not a regular file — while `gzip`
is acceptable and the gzip variant is a regular file, the brotli stage ends
up selecting gzip with `Content-Encoding: gzip` and the variant's weak
ETag. -/
theorem chooseBr_gzipWins (a : Assets) (rnd : Nat) (st : ExpiryState)
    (h : Header) (ae : List String) (r : String) (fi : FileInfo)
    (hbnf : ae.contains "br" = true →
      ∀ fj : FileInfo, a.fs (removeLeadingSlash (r ++ ".br")) ≠ .file fj)
    (hg : ae.contains "gzip" = true)
    (hfs : a.fs (removeLeadingSlash (r ++ ".gz")) = .file fi) :
    (chooseBr a rnd st h ae r).resource = r ++ ".gz" ∧
    (chooseBr a rnd st h ae r).code = OK ∧
    hdrValues (chooseBr a rnd st h ae r).hdr "Content-Encoding" = ["gzip"] ∧
    hdrValues (chooseBr a rnd st h ae r).hdr "ETag"
      = ["W/" ++ calculateEtag (some fi)] := by
  by_cases hb : ae.contains "br"
  · rw [chooseBr_fallthrough a rnd st h ae r hb (hbnf hb),
      chooseGzip_selects _ _ _ _ _ _ fi hg hfs]
    exact ⟨rfl, rfl, serveCompressed_contentEncoding _ _ _ _,
      serveCompressed_etag _ _ _ _⟩
  · rw [chooseBr_no _ _ _ _ _ _ (by simpa using hb),
      chooseGzip_selects _ _ _ _ _ _ fi hg hfs]
    exact ⟨rfl, rfl, serveCompressed_contentEncoding _ _ _ _,
      serveCompressed_etag _ _ _ _⟩

/-- Whenever neither compressed variant is selected — each encoding either
not acceptable or its variant not a regular file — and the plain resource
is a regular file, the brotli stage ends up selecting the plain resource
with its strong ETag. -/
theorem chooseBr_plainWins (a : Assets) (rnd : Nat) (st : ExpiryState)
    (h : Header) (ae : List String) (r : String) (fi : FileInfo)
    (hbnf : ae.contains "br" = true →
      ∀ fj : FileInfo, a.fs (removeLeadingSlash (r ++ ".br")) ≠ .file fj)
    (hgnf : ae.contains "gzip" = true →
      ∀ fj : FileInfo, a.fs (removeLeadingSlash (r ++ ".gz")) ≠ .file fj)
    (hfs : a.fs (removeLeadingSlash r) = .file fi) :
    (chooseBr a rnd st h ae r).resource = r ∧
    (chooseBr a rnd st h ae r).code = OK ∧
    hdrValues (chooseBr a rnd st h ae r).hdr "ETag"
      = [calculateEtag (some fi)] := by
  have hplain : ∀ (h' : Header),
      (choosePlain a rnd st h' r).resource = r ∧
      (choosePlain a rnd st h' r).code = OK ∧
      hdrValues (choosePlain a rnd st h' r).hdr "ETag"
        = [calculateEtag (some fi)] := by
    intro h'
    rw [choosePlain_file _ _ _ _ _ _ hfs]
    exact ⟨rfl, rfl, hdrValues_set_self _ _ _⟩
  have hgz : ∀ (h' : Header),
      (chooseGzip a rnd st h' ae r).resource = r ∧
      (chooseGzip a rnd st h' ae r).code = OK ∧
      hdrValues (chooseGzip a rnd st h' ae r).hdr "ETag"
        = [calculateEtag (some fi)] := by
    intro h'
    by_cases hg : ae.contains "gzip"
    · rw [chooseGzip_fallthrough a rnd st h' ae r hg (hgnf hg)]
      exact hplain _
    · rw [chooseGzip_no _ _ _ _ _ _ (by simpa using hg)]
      exact hplain _
  by_cases hb : ae.contains "br"
  · rw [chooseBr_fallthrough a rnd st h ae r hb (hbnf hb)]
    exact hgz _
  · rw [chooseBr_no _ _ _ _ _ _ (by simpa using hb)]
    exact hgz _

/-- The gzip variant is selected (with its weak ETag) whenever brotli is not
— because `br` is absent from the list or the `.br` file is missing —
`gzip` is acceptable and the `.gz` file exists, for the whole non-directory
part of the resolver. -/
theorem chooseResourceSub_gzipWins (a : Assets) (now rnd : Nat)
    (st : ExpiryState) (hdr : Header) (req : Request) (r : String) (fi : FileInfo)
    (hbnf : (commaSeparatedList req.acceptEncoding).contains "br" = true →
      ∀ fj : FileInfo, a.fs (removeLeadingSlash (r ++ ".br")) ≠ .file fj)
    (hgz : (commaSeparatedList req.acceptEncoding).contains "gzip" = true)
    (hfs : a.fs (removeLeadingSlash (r ++ ".gz")) = .file fi) :
    (chooseResourceSub a now rnd st hdr req r).resource = r ++ ".gz" ∧
    (chooseResourceSub a now rnd st hdr req r).code = OK ∧
    hdrValues (chooseResourceSub a now rnd st hdr req r).hdr "Content-Encoding"
      = ["gzip"] ∧
    hdrValues (chooseResourceSub a now rnd st hdr req r).hdr "ETag"
      = ["W/" ++ calculateEtag (some fi)] := by
  by_cases hma : 0 < a.MaxAge
  · rw [chooseResourceSub_pos _ _ _ _ _ _ _ hma]
    exact chooseBr_gzipWins a rnd _ _ _ r fi hbnf hgz hfs
  · rw [chooseResourceSub_zero _ _ _ _ _ _ _ hma]
    exact chooseBr_gzipWins a rnd _ _ _ r fi hbnf hgz hfs

/-- The plain resource is selected (with its strong ETag) whenever neither
compressed variant is — each encoding either unacceptable or its file
missing — and the plain file exists, for the whole non-directory part of
the resolver. -/
theorem chooseResourceSub_plainWins (a : Assets) (now rnd : Nat)
    (st : ExpiryState) (hdr : Header) (req : Request) (r : String) (fi : FileInfo)
    (hbnf : (commaSeparatedList req.acceptEncoding).contains "br" = true →
      ∀ fj : FileInfo, a.fs (removeLeadingSlash (r ++ ".br")) ≠ .file fj)
    (hgnf : (commaSeparatedList req.acceptEncoding).contains "gzip" = true →
      ∀ fj : FileInfo, a.fs (removeLeadingSlash (r ++ ".gz")) ≠ .file fj)
    (hfs : a.fs (removeLeadingSlash r) = .file fi) :
    (chooseResourceSub a now rnd st hdr req r).resource = r ∧
    (chooseResourceSub a now rnd st hdr req r).code = OK ∧
    hdrValues (chooseResourceSub a now rnd st hdr req r).hdr "ETag"
      = [calculateEtag (some fi)] := by
  by_cases hma : 0 < a.MaxAge
  · rw [chooseResourceSub_pos _ _ _ _ _ _ _ hma]
    exact chooseBr_plainWins a rnd _ _ _ r fi hbnf hgnf hfs
  · rw [chooseResourceSub_zero _ _ _ _ _ _ _ hma]
    exact chooseBr_plainWins a rnd _ _ _ r fi hbnf hgnf hfs

/-- If a rendered code has a rendering, `httpError` cannot reach the panic
of `code.String`. -/
theorem httpError_no_panic (c : Code) (m : String)
    (hs : (codeString c).isSome) : httpError c m ≠ .panicked := by
  unfold httpError
  by_cases hm : m = "HEAD"
  · simp [hm]
  · rcases Option.isSome_iff_exists.mp hs with ⟨s, hsome⟩
    simp [hm, hsome]

/-! ## The claims -/

/-- C1 (amended): for every request whose stripped path ends in `/` and whose
directory contains an `index.html` regular file (with no compressed-variant
negotiation in play), the resolver returns the directory path itself — not
the index path, which `http.FileServer` would redirect — with outcome
`OK`/Resolved. -/
theorem claim_C1 (a : Assets) (now rnd : Nat) (st : ExpiryState) (hdr : Header)
    (req : Request) (resource : String) (fi : FileInfo)
    (hs : hasSuffix resource "/" = true)
    (hfs : a.fs (removeLeadingSlash (resource ++ IndexPage)) = .file fi)
    (hbr : (commaSeparatedList req.acceptEncoding).contains "br" = false)
    (hgz : (commaSeparatedList req.acceptEncoding).contains "gzip" = false) :
    (chooseResource a now rnd st hdr req resource).resource = resource ∧
    (chooseResource a now rnd st hdr req resource).code = OK := by
  obtain ⟨hres, hcode, -⟩ :=
    chooseResourceSub_plainSelected a now rnd st hdr req (resource ++ IndexPage)
      fi hbr hgz hfs
  simp only [chooseResource, if_pos hs]
  rw [if_pos hcode]
  have hsx : hasSuffix
      (chooseResourceSub a now rnd st hdr req (resource ++ IndexPage)).resource
      ("/" ++ IndexPage) = true := by
    rw [hres]
    exact hasSuffix_append_right resource "/" IndexPage hs
  rw [if_pos hsx]
  exact ⟨rfl, hcode⟩

/-- C1 (counterexample to the claim as stated): a request for `/docs/` with
`docs/index.html` present resolves to the directory path `/docs/` with
outcome `OK`, not to the index path `/docs/index.html` that the claim
states. -/
theorem claim_C1_counterexample :
    (chooseResource
      ⟨0, 0, false, false, false,
        fun p => if p = "docs/index.html" then .file ⟨100, 5⟩ else .errNotExist⟩
      0 0 ExpiryState.initial [] ⟨"GET", "/docs/", ""⟩ "/docs/").resource
        = "/docs/" ∧
    (chooseResource
      ⟨0, 0, false, false, false,
        fun p => if p = "docs/index.html" then .file ⟨100, 5⟩ else .errNotExist⟩
      0 0 ExpiryState.initial [] ⟨"GET", "/docs/", ""⟩ "/docs/").code = OK ∧
    ¬ (chooseResource
      ⟨0, 0, false, false, false,
        fun p => if p = "docs/index.html" then .file ⟨100, 5⟩ else .errNotExist⟩
      0 0 ExpiryState.initial [] ⟨"GET", "/docs/", ""⟩ "/docs/").resource
        = "/docs/index.html" := by
  refine ⟨?_, ?_, ?_⟩ <;> decide

/-- C1 (witness): the amended theorem applied at the concrete `/docs/`
request with `docs/index.html` present. -/
theorem claim_C1_witness :
    (chooseResource
      ⟨0, 0, false, false, false,
        fun p => if p = "docs/index.html" then .file ⟨100, 5⟩ else .errNotExist⟩
      0 0 ExpiryState.initial [] ⟨"GET", "/docs/", ""⟩ "/docs/").resource
        = "/docs/" ∧
    (chooseResource
      ⟨0, 0, false, false, false,
        fun p => if p = "docs/index.html" then .file ⟨100, 5⟩ else .errNotExist⟩
      0 0 ExpiryState.initial [] ⟨"GET", "/docs/", ""⟩ "/docs/").code = OK :=
  claim_C1 _ 0 0 ExpiryState.initial [] ⟨"GET", "/docs/", ""⟩ "/docs/" ⟨100, 5⟩
    (by decide) (by decide) (by decide) (by decide)

/-- C2 (the code evaluated at the failing input): with `MaxAge` one hour
(3600000000000 ns), the first `expires` call at `now` = 1 s after the epoch
sets the watermark to `1 + 36000000001 = 36000000002` — the line
`a.timestamp = unix + int64(a.expiryElasticity)` adds the elasticity's raw
nanosecond count to a seconds value — so a second call one billion seconds
(about 31.7 years) later still returns the cached string, which renders the
expiry second 3637; the cached `Expires` value is decades stale, not at most
about one second stale as the claim and the code's own comment ("cache the
formatted string for one second") state. -/
theorem claim_C2_bug :
    ((expires 3600000000000 1000000000 ExpiryState.initial).1).timestamp
        = 36000000002 ∧
    (expires 3600000000000 1000000000000000000
        (expires 3600000000000 1000000000 ExpiryState.initial).1).2
      = (expires 3600000000000 1000000000 ExpiryState.initial).2 ∧
    (expires 3600000000000 1000000000 ExpiryState.initial).2
      = timeFormatRFC1123 3637 := by
  refine ⟨?_, ?_, ?_⟩ <;> decide

/-- C3: the probe fully absorbs and reclassifies every stat error — a
not-exists error yields `NotFound`, a permission error yields `Forbidden`,
any other error yields `ServiceUnavailable` together with a `Retry-After`
header whose integer value lies in `[2,6)` — and the code it hands on is
always one of the classified outcome codes, never a raw filesystem error. -/
theorem claim_C3 (fs : Fs) (rnd : Nat) (resource : String) (h : Header) :
    (fs (removeLeadingSlash resource) = .errNotExist →
      checkResource fs rnd resource h = (h, ⟨"", NotFound, none⟩)) ∧
    (fs (removeLeadingSlash resource) = .errPermission →
      checkResource fs rnd resource h = (h, ⟨resource, Forbidden, none⟩)) ∧
    (fs (removeLeadingSlash resource) = .errOther →
      (checkResource fs rnd resource h).2 = ⟨resource, ServiceUnavailable, none⟩ ∧
      ∃ v : Nat, hdrGet (checkResource fs rnd resource h).1 "Retry-After"
          = toString v ∧ 2 ≤ v ∧ v < 6) ∧
    isOutcome (checkResource fs rnd resource h).2.code := by
  refine ⟨?_, ?_, ?_, checkResource_isOutcome fs rnd resource h⟩
  · intro hfs
    simp [checkResource, hfs]
  · intro hfs
    simp [checkResource, hfs]
  · intro hfs
    refine ⟨by simp [checkResource, hfs, handleSaturatedServer],
      ⟨2 + rnd % 4, ?_, by omega, ?_⟩⟩
    · simp [checkResource, hfs, handleSaturatedServer, hdrGet, hdrValues_set_self]
    · have h4 : rnd % 4 < 4 := Nat.mod_lt rnd (by decide)
      omega

/-- C3 (witness): the unclassified-error conjunct applied at a concrete
filesystem whose stat always fails with an unclassified error. -/
theorem claim_C3_witness :
    (checkResource (fun _ => .errOther) 7 "/x" []).2
        = ⟨"/x", ServiceUnavailable, none⟩ ∧
    ∃ v : Nat, hdrGet (checkResource (fun _ => .errOther) 7 "/x" []).1 "Retry-After"
        = toString v ∧ 2 ≤ v ∧ v < 6 :=
  (claim_C3 (fun _ => .errOther) 7 "/x" []).2.2.1 rfl

/-- C4: when the accept-encoding list contains both `br` and `gzip` and both
compressed variants exist as regular files, the resolver selects the brotli
variant (brotli is probed before gzip) with outcome `OK` and sets
`Content-Encoding: br`. -/
theorem claim_C4 (a : Assets) (now rnd : Nat) (st : ExpiryState) (hdr : Header)
    (req : Request) (resource : String) (fi fj : FileInfo)
    (hns : hasSuffix resource "/" = false)
    (hbr : (commaSeparatedList req.acceptEncoding).contains "br" = true)
    (hgz : (commaSeparatedList req.acceptEncoding).contains "gzip" = true)
    (hfbr : a.fs (removeLeadingSlash (resource ++ ".br")) = .file fi)
    (hfgz : a.fs (removeLeadingSlash (resource ++ ".gz")) = .file fj) :
    (chooseResource a now rnd st hdr req resource).resource = resource ++ ".br" ∧
    (chooseResource a now rnd st hdr req resource).code = OK ∧
    hdrGet (chooseResource a now rnd st hdr req resource).hdr "Content-Encoding"
      = "br" := by
  rw [chooseResource_noSlash _ _ _ _ _ _ _ hns]
  obtain ⟨hres, hcode, hce, -⟩ :=
    chooseResourceSub_brSelected a now rnd st hdr req resource fi hbr hfbr
  refine ⟨hres, hcode, ?_⟩
  rw [hdrGet, hce]
  rfl

/-- C4 (witness): concrete request with `Accept-Encoding: br, gzip` and both
`a.css.br` and `a.css.gz` present. -/
theorem claim_C4_witness :
    (chooseResource
      ⟨0, 0, false, false, false,
        fun p => if p = "css/a.css.br" then .file ⟨100, 5⟩
                 else if p = "css/a.css.gz" then .file ⟨100, 7⟩
                 else .errNotExist⟩
      0 0 ExpiryState.initial [] ⟨"GET", "/css/a.css", "br, gzip"⟩
      "/css/a.css").resource = "/css/a.css" ++ ".br" ∧
    (chooseResource
      ⟨0, 0, false, false, false,
        fun p => if p = "css/a.css.br" then .file ⟨100, 5⟩
                 else if p = "css/a.css.gz" then .file ⟨100, 7⟩
                 else .errNotExist⟩
      0 0 ExpiryState.initial [] ⟨"GET", "/css/a.css", "br, gzip"⟩
      "/css/a.css").code = OK ∧
    hdrGet (chooseResource
      ⟨0, 0, false, false, false,
        fun p => if p = "css/a.css.br" then .file ⟨100, 5⟩
                 else if p = "css/a.css.gz" then .file ⟨100, 7⟩
                 else .errNotExist⟩
      0 0 ExpiryState.initial [] ⟨"GET", "/css/a.css", "br, gzip"⟩
      "/css/a.css").hdr "Content-Encoding" = "br" :=
  claim_C4 _ 0 0 ExpiryState.initial [] ⟨"GET", "/css/a.css", "br, gzip"⟩
    "/css/a.css" ⟨100, 5⟩ ⟨100, 7⟩ (by decide) (by decide) (by decide)
    (by decide) (by decide)

/-- C5: for every resolved file — when a compressed variant is selected
(because its encoding token is acceptable and its file exists, brotli taking
precedence) the `ETag` is the weak form `W/"<hex modtime>-<hex size>"`
computed from the variant's file info; and when the selection falls through
to the plain file (each encoding either absent from the accept list or its
variant not a regular file) with a success outcome, the `ETag` is the strong
form `"<hex modtime>-<hex size>"` computed from the plain file's info.  The
fall-through premises cover the spec's cited scenarios: `br, gzip` accepted
with only the `.gz` variant present selects gzip with a weak ETag, and with
neither variant present selects the plain file with a strong ETag. -/
theorem claim_C5 (a : Assets) (now rnd : Nat) (st : ExpiryState) (hdr : Header)
    (req : Request) (resource : String) (fi : FileInfo)
    (hns : hasSuffix resource "/" = false) :
    ((commaSeparatedList req.acceptEncoding).contains "br" = true →
      a.fs (removeLeadingSlash (resource ++ ".br")) = .file fi →
      hdrValues (chooseResource a now rnd st hdr req resource).hdr "ETag"
        = ["W/" ++ calculateEtag (some fi)]) ∧
    (((commaSeparatedList req.acceptEncoding).contains "br" = true →
        ∀ fj : FileInfo,
          a.fs (removeLeadingSlash (resource ++ ".br")) ≠ .file fj) →
      (commaSeparatedList req.acceptEncoding).contains "gzip" = true →
      a.fs (removeLeadingSlash (resource ++ ".gz")) = .file fi →
      hdrValues (chooseResource a now rnd st hdr req resource).hdr "ETag"
        = ["W/" ++ calculateEtag (some fi)]) ∧
    (((commaSeparatedList req.acceptEncoding).contains "br" = true →
        ∀ fj : FileInfo,
          a.fs (removeLeadingSlash (resource ++ ".br")) ≠ .file fj) →
      ((commaSeparatedList req.acceptEncoding).contains "gzip" = true →
        ∀ fj : FileInfo,
          a.fs (removeLeadingSlash (resource ++ ".gz")) ≠ .file fj) →
      a.fs (removeLeadingSlash resource) = .file fi →
      (chooseResource a now rnd st hdr req resource).code = OK ∧
      hdrValues (chooseResource a now rnd st hdr req resource).hdr "ETag"
        = [calculateEtag (some fi)]) := by
  rw [chooseResource_noSlash _ _ _ _ _ _ _ hns]
  refine ⟨?_, ?_, ?_⟩
  · intro hbr hfs
    exact (chooseResourceSub_brSelected a now rnd st hdr req resource fi
      hbr hfs).2.2.2
  · intro hbnf hgz hfs
    exact (chooseResourceSub_gzipWins a now rnd st hdr req resource fi
      hbnf hgz hfs).2.2.2
  · intro hbnf hgnf hfs
    obtain ⟨-, hcode, hetag⟩ :=
      chooseResourceSub_plainWins a now rnd st hdr req resource fi hbnf hgnf hfs
    exact ⟨hcode, hetag⟩

/-- C5 (witness): the three conjuncts applied at the spec's concrete
scenarios, all with `Accept-Encoding: br, gzip` — both variants present
selects brotli with a weak ETag; only `a.css.gz` present falls through to
gzip with a weak ETag; neither variant present falls through to the plain
file with a strong ETag. -/
theorem claim_C5_witness :
    hdrValues (chooseResource
      ⟨0, 0, false, false, false,
        fun p => if p = "css/a.css.br" then .file ⟨100, 5⟩
                 else if p = "css/a.css.gz" then .file ⟨100, 7⟩
                 else .errNotExist⟩
      0 0 ExpiryState.initial [] ⟨"GET", "/css/a.css", "br, gzip"⟩
      "/css/a.css").hdr "ETag" = ["W/" ++ calculateEtag (some ⟨100, 5⟩)] ∧
    hdrValues (chooseResource
      ⟨0, 0, false, false, false,
        fun p => if p = "css/a.css.gz" then .file ⟨100, 7⟩ else .errNotExist⟩
      0 0 ExpiryState.initial [] ⟨"GET", "/css/a.css", "br, gzip"⟩
      "/css/a.css").hdr "ETag" = ["W/" ++ calculateEtag (some ⟨100, 7⟩)] ∧
    hdrValues (chooseResource
      ⟨0, 0, false, false, false,
        fun p => if p = "css/a.css" then .file ⟨100, 9⟩ else .errNotExist⟩
      0 0 ExpiryState.initial [] ⟨"GET", "/css/a.css", "br, gzip"⟩
      "/css/a.css").hdr "ETag" = [calculateEtag (some ⟨100, 9⟩)] :=
  ⟨(claim_C5 _ 0 0 ExpiryState.initial [] ⟨"GET", "/css/a.css", "br, gzip"⟩
      "/css/a.css" ⟨100, 5⟩ (by decide)).1 (by decide) (by decide),
   (claim_C5 _ 0 0 ExpiryState.initial [] ⟨"GET", "/css/a.css", "br, gzip"⟩
      "/css/a.css" ⟨100, 7⟩ (by decide)).2.1
      (fun _ fj hc => StatResult.noConfusion hc) (by decide) (by decide),
   ((claim_C5 _ 0 0 ExpiryState.initial [] ⟨"GET", "/css/a.css", "br, gzip"⟩
      "/css/a.css" ⟨100, 9⟩ (by decide)).2.2
      (fun _ fj hc => StatResult.noConfusion hc)
      (fun _ fj hc => StatResult.noConfusion hc) (by decide)).2⟩

/-- C6: for a configuration built with `WithMaxAge`, a positive max age makes
resolution set `Cache-Control` to exactly `public, max-age=<whole seconds>`
together with an `Expires` header (on the non-directory path, where the
cache-header block runs and nothing later removes them), and a zero max age
makes it set neither (whatever path is taken, both keys stay absent). -/
theorem claim_C6 (a : Assets) (st : ExpiryState) (m : Int) (a' : Assets)
    (st' : ExpiryState) (now rnd : Nat) (hdr : Header) (req : Request)
    (resource : String)
    (hw : WithMaxAge a st m = some (a', st')) :
    (0 < m → hasSuffix resource "/" = false →
      hdrValues (chooseResource a' now rnd st' hdr req resource).hdr "Cache-Control"
        = ["public, max-age=" ++ toString (m.toNat / nsPerSecond)] ∧
      hdrValues (chooseResource a' now rnd st' hdr req resource).hdr "Expires"
        = [(expires a'.MaxAge now st').2]) ∧
    (m = 0 → hdrValues hdr "Expires" = [] → hdrValues hdr "Cache-Control" = [] →
      hdrValues (chooseResource a' now rnd st' hdr req resource).hdr "Expires" = [] ∧
      hdrValues (chooseResource a' now rnd st' hdr req resource).hdr "Cache-Control"
        = []) := by
  unfold WithMaxAge at hw
  by_cases hneg : m < 0
  · rw [if_pos hneg] at hw
    cases hw
  · rw [if_neg hneg] at hw
    have ha' : a' = { a with MaxAge := m.toNat } := by
      cases hw
      rfl
    have hst' : st' = { st with maxAgeS := m.toNat / nsPerSecond } := by
      cases hw
      rfl
    constructor
    · intro hm hns
      have hma : 0 < a'.MaxAge := by
        rw [ha']
        show 0 < m.toNat
        omega
      have hmaxS : st'.maxAgeS = a'.MaxAge / nsPerSecond := by
        rw [ha', hst']
      rw [chooseResource_noSlash _ _ _ _ _ _ _ hns,
        chooseResourceSub_cacheControl _ _ _ _ _ _ _ hma,
        chooseResourceSub_expires _ _ _ _ _ _ _ hma,
        expires_maxAgeS _ _ _ hmaxS]
      have hma' : a'.MaxAge = m.toNat := by rw [ha']
      rw [hma']
      exact ⟨rfl, rfl⟩
    · intro hm0 hE hC
      have hma : ¬ 0 < a'.MaxAge := by
        rw [ha', hm0]
        simp
      exact chooseResource_m0_cache a' now rnd st' hdr req resource hma hE hC

/-- C6 (witness): the positive conjunct at max age one hour on `/a.css`, and
the zero conjunct at max age zero on the same request. -/
theorem claim_C6_witness :
    (hdrValues (chooseResource
      ⟨0, 3600000000000, false, false, false,
        fun p => if p = "a.css" then .file ⟨100, 9⟩ else .errNotExist⟩
      1000000000 0 ⟨0, 0, "", 3600⟩ [] ⟨"GET", "/a.css", ""⟩ "/a.css").hdr
        "Cache-Control" = ["public, max-age=3600"]) ∧
    (hdrValues (chooseResource
      ⟨0, 0, false, false, false,
        fun p => if p = "a.css" then .file ⟨100, 9⟩ else .errNotExist⟩
      1000000000 0 ⟨0, 0, "", 0⟩ [] ⟨"GET", "/a.css", ""⟩ "/a.css").hdr
        "Expires" = []) := by
  constructor
  · have h := (claim_C6 ⟨0, 0, false, false, false,
        fun p => if p = "a.css" then .file ⟨100, 9⟩ else .errNotExist⟩
      ⟨0, 0, "", 0⟩ 3600000000000 _ _ 1000000000 0 [] ⟨"GET", "/a.css", ""⟩
      "/a.css" rfl).1 (by decide) (by decide)
    exact h.1
  · have h := (claim_C6 ⟨0, 0, false, false, false,
        fun p => if p = "a.css" then .file ⟨100, 9⟩ else .errNotExist⟩
      ⟨0, 0, "", 0⟩ 0 _ _ 1000000000 0 [] ⟨"GET", "/a.css", ""⟩
      "/a.css" rfl).2 rfl rfl rfl
    exact h.1

/-- C7: a directory request whose index resolution fails (not-exists, no
compressed variants in play) while `DisableDirListing` is set returns the
index resolution's own failure (`NotFound`, empty resource) and deletes any
previously set `Expires` and `Cache-Control` entries from the response
header collection. -/
theorem claim_C7 (a : Assets) (now rnd : Nat) (st : ExpiryState) (hdr : Header)
    (req : Request) (resource : String)
    (hs : hasSuffix resource "/" = true)
    (hdl : a.DisableDirListing = true)
    (hfs : a.fs (removeLeadingSlash (resource ++ IndexPage)) = .errNotExist)
    (hbr : (commaSeparatedList req.acceptEncoding).contains "br" = false)
    (hgz : (commaSeparatedList req.acceptEncoding).contains "gzip" = false) :
    (chooseResource a now rnd st hdr req resource).code = NotFound ∧
    (chooseResource a now rnd st hdr req resource).resource = "" ∧
    hdrValues (chooseResource a now rnd st hdr req resource).hdr "Expires" = [] ∧
    hdrValues (chooseResource a now rnd st hdr req resource).hdr "Cache-Control"
      = [] := by
  obtain ⟨hres, hcode⟩ :=
    chooseResourceSub_notExist a now rnd st hdr req (resource ++ IndexPage)
      hbr hgz hfs
  have hnok : ¬ (chooseResourceSub a now rnd st hdr req (resource ++ IndexPage)).code
      = OK := by
    rw [hcode]
    decide
  simp only [chooseResource, if_pos hs]
  rw [if_neg hnok, if_pos (hdl ▸ rfl : a.DisableDirListing = true)]
  refine ⟨hcode, hres, ?_, ?_⟩
  · show hdrValues (hdrDel (hdrDel _ "Expires") "Cache-Control") "Expires" = []
    rw [hdrValues_del_ne _ (by decide)]
    exact hdrValues_del_self _ _
  · exact hdrValues_del_self _ _

/-- C7 (witness): the concrete `/docs/` request against an empty filesystem
with directory listings disabled and `Expires` previously set. -/
theorem claim_C7_witness :
    (chooseResource ⟨0, 0, false, false, true, fun _ => .errNotExist⟩
      0 0 ExpiryState.initial [("Expires", ["x"])] ⟨"GET", "/docs/", ""⟩
      "/docs/").code = NotFound ∧
    (chooseResource ⟨0, 0, false, false, true, fun _ => .errNotExist⟩
      0 0 ExpiryState.initial [("Expires", ["x"])] ⟨"GET", "/docs/", ""⟩
      "/docs/").resource = "" ∧
    hdrValues (chooseResource ⟨0, 0, false, false, true, fun _ => .errNotExist⟩
      0 0 ExpiryState.initial [("Expires", ["x"])] ⟨"GET", "/docs/", ""⟩
      "/docs/").hdr "Expires" = [] ∧
    hdrValues (chooseResource ⟨0, 0, false, false, true, fun _ => .errNotExist⟩
      0 0 ExpiryState.initial [("Expires", ["x"])] ⟨"GET", "/docs/", ""⟩
      "/docs/").hdr "Cache-Control" = [] :=
  claim_C7 _ 0 0 ExpiryState.initial [("Expires", ["x"])] ⟨"GET", "/docs/", ""⟩
    "/docs/" (by decide) rfl (by decide) (by decide) (by decide)

/-- C8: for a GET or HEAD request handed to the byte-serving collaborator,
`ServeHTTP` lets the collaborator see the resolved resource path in
`req.URL.Path` but restores the original path before returning, so the
request's URL path after `ServeHTTP` equals its value on entry (and the
other request fields are untouched). -/
theorem claim_C8 (a : Assets) (now rnd : Nat) (st : ExpiryState) (w : Header)
    (req : Request) (collab : Request)
    (hm : req.method = "GET" ∨ req.method = "HEAD")
    (hs : (ServeHTTP a now rnd st w req).dispatch = .served collab) :
    (ServeHTTP a now rnd st w req).req = req ∧
    collab.urlPath = (chooseResource a now rnd st w req
        (pathDrop req.urlPath a.UnwantedPrefixSegments)).resource ∧
    collab.method = req.method ∧ collab.acceptEncoding = req.acceptEncoding := by
  have hmc : ¬ (req.method ≠ "HEAD" ∧ req.method ≠ "GET") := by
    rcases hm with h | h <;> simp [h]
  simp only [ServeHTTP, if_neg hmc] at hs ⊢
  by_cases h404 : (chooseResource a now rnd st w req
      (pathDrop req.urlPath a.UnwantedPrefixSegments)).code = NotFound ∧
      a.NotFoundHandler
  · rw [if_pos h404] at hs
    cases hs
  · rw [if_neg h404] at hs ⊢
    by_cases hge : 400 ≤ (chooseResource a now rnd st w req
        (pathDrop req.urlPath a.UnwantedPrefixSegments)).code
    · rw [if_pos hge] at hs
      cases hs
    · rw [if_neg hge] at hs ⊢
      cases hs
      exact ⟨rfl, rfl, rfl, rfl⟩

/-- C8 (witness): a concrete GET request that is served; afterwards the
request equals its entry value and the collaborator saw the resolved path. -/
theorem claim_C8_witness :
    (ServeHTTP ⟨0, 0, false, false, false, fun _ => .file ⟨1, 1⟩⟩
        0 0 ExpiryState.initial [] ⟨"GET", "/a", ""⟩).req = ⟨"GET", "/a", ""⟩ ∧
    (⟨"GET", "/a", ""⟩ : Request).urlPath =
      (chooseResource ⟨0, 0, false, false, false, fun _ => .file ⟨1, 1⟩⟩
        0 0 ExpiryState.initial [] ⟨"GET", "/a", ""⟩
        (pathDrop "/a" 0)).resource ∧
    (⟨"GET", "/a", ""⟩ : Request).method = "GET" ∧
    (⟨"GET", "/a", ""⟩ : Request).acceptEncoding = "" :=
  claim_C8 ⟨0, 0, false, false, false, fun _ => .file ⟨1, 1⟩⟩
    0 0 ExpiryState.initial [] ⟨"GET", "/a", ""⟩ ⟨"GET", "/a", ""⟩
    (Or.inl rfl) (by decide)

/-- C9: resolving the same request twice (same URL path, same
`Accept-Encoding`, same initial response headers) against the same
filesystem — even with different wall-clock times, random draws and expiry
cache states in between — yields an identical resource path, an identical
outcome code, and an identical `ETag` header value. -/
theorem claim_C9 (a : Assets) (req : Request) (r : String) (hdr : Header)
    (now₁ now₂ rnd₁ rnd₂ : Nat) (st₁ st₂ : ExpiryState) :
    (chooseResource a now₁ rnd₁ st₁ hdr req r).resource =
      (chooseResource a now₂ rnd₂ st₂ hdr req r).resource ∧
    (chooseResource a now₁ rnd₁ st₁ hdr req r).code =
      (chooseResource a now₂ rnd₂ st₂ hdr req r).code ∧
    hdrValues (chooseResource a now₁ rnd₁ st₁ hdr req r).hdr "ETag" =
      hdrValues (chooseResource a now₂ rnd₂ st₂ hdr req r).hdr "ETag" :=
  chooseResource_pair a req r now₁ now₂ rnd₁ rnd₂ st₁ st₂ hdr

/-- C10: the rendering `code.String` panics on the internal `Directory` code
(it has no listed rendering), but every `httpError` invocation reachable
from `ServeHTTP` carries `MethodNotAllowed` or a classified code `≥ 400`
(`Forbidden`, `NotFound`, `ServiceUnavailable`), each of which has a
rendering — so the panic branch is unreachable from the dispatcher. -/
theorem claim_C10 (a : Assets) (now rnd : Nat) (st : ExpiryState) (w : Header)
    (req : Request) (c : Code) (m : String)
    (h : (ServeHTTP a now rnd st w req).dispatch = .httpErrorWith c) :
    codeString Directory = none ∧ (codeString c).isSome ∧
    httpError c m ≠ .panicked := by
  have hc : c = MethodNotAllowed ∨ (isOutcome c ∧ 400 ≤ c) := by
    simp only [ServeHTTP] at h
    by_cases hmc : req.method ≠ "HEAD" ∧ req.method ≠ "GET"
    · rw [if_pos hmc] at h
      by_cases hd : a.MethodNotAllowedHandler
      · rw [if_pos hd] at h
        cases h
      · rw [if_neg hd] at h
        injection h with h'
        exact Or.inl h'.symm
    · rw [if_neg hmc] at h
      by_cases h404 : (chooseResource a now rnd st w req
          (pathDrop req.urlPath a.UnwantedPrefixSegments)).code = NotFound ∧
          a.NotFoundHandler
      · rw [if_pos h404] at h
        cases h
      · rw [if_neg h404] at h
        by_cases hge : 400 ≤ (chooseResource a now rnd st w req
            (pathDrop req.urlPath a.UnwantedPrefixSegments)).code
        · rw [if_pos hge] at h
          injection h with h'
          subst h'
          exact Or.inr ⟨chooseResource_isOutcome _ _ _ _ _ _ _, hge⟩
        · rw [if_neg hge] at h
          cases h
  have hsome : (codeString c).isSome := by
    rcases hc with h405 | ⟨hout, hge⟩
    · rw [h405]
      decide
    · rcases hout with h0 | h200 | h403 | h404 | h503
      · rw [h0] at hge
        exact absurd hge (by decide)
      · rw [h200] at hge
        exact absurd hge (by decide)
      · rw [h403]
        decide
      · rw [h404]
        decide
      · rw [h503]
        decide
  exact ⟨rfl, hsome, httpError_no_panic c m hsome⟩

/-- C10 (witness): a GET for a missing resource with no configured not-found
handler dispatches to `httpError` with code 404, which renders without
panicking. -/
theorem claim_C10_witness :
    codeString Directory = none ∧ (codeString 404).isSome ∧
    httpError 404 "GET" ≠ .panicked :=
  claim_C10 ⟨0, 0, false, false, false, fun _ => .errNotExist⟩
    0 0 ExpiryState.initial [] ⟨"GET", "/a", ""⟩ 404 "GET" (by decide)

end Servefiles
